import Mathlib

/-!
# Verification of the mensa-cli canteen resolution & meal reporting pipeline

Shallow embedding of the core pipeline of `floork/mensa-cli`
(`src/main.rs` and `src/cli/cli.rs`), together with theorems settling the
specification claims about it.

External collaborators (the openmensa directory/meal lookup service) are
passed in as function parameters, and every collaborator invocation is
recorded in an explicit call trace so that "no network call happens"
style claims become statements about that trace.
-/

set_option maxHeartbeats 1000000

namespace MensaCli

/-! ## Calendar dates

Embeds chrono's `NaiveDate`: a plain (year, month, day) triple in the
proleptic Gregorian calendar, year being astronomical (0 = 1 BCE).
-/

structure NaiveDate where
  year : Int
  month : Nat
  day : Nat
deriving DecidableEq, Repr

/-- Gregorian leap-year rule, as used by chrono. -/
def isLeapYear (y : Int) : Bool :=
  (y % 4 == 0 && y % 100 != 0) || y % 400 == 0

/-- Number of days of month `m` of year `y` (0 for an invalid month). -/
def daysInMonth (y : Int) (m : Nat) : Nat :=
  match m with
  | 1 => 31 | 3 => 31 | 5 => 31 | 7 => 31 | 8 => 31 | 10 => 31 | 12 => 31
  | 4 => 30 | 6 => 30 | 9 => 30 | 11 => 30
  | 2 => if isLeapYear y then 29 else 28
  | _ => 0

/-- Validity of a (year, month, day) triple as a real Gregorian calendar
date inside chrono's supported year range (`NaiveDate::from_ymd_opt`). -/
def validYmd (y : Int) (m d : Nat) : Bool :=
  1 ≤ m && m ≤ 12 && 1 ≤ d && d ≤ daysInMonth y m
    && -262144 ≤ y && y ≤ 262143

/-! ## chrono's `%Y-%m-%d` parsing

Embeds `NaiveDate::parse_from_str(s, "%Y-%m-%d")` from chrono 0.4, the
library call made by `parse_date` in `src/main.rs`.  chrono compiles the
format string to `[Num(Year), Lit "-", Num(Month), Lit "-", Num(Day)]` and
its parser is lenient for numeric items: leading whitespace before a
numeric item is skipped, an unsigned number may use from 1 digit up to the
item's width (4 for the year, 2 for month and day), and the year may
carry an explicit sign in which case any number of digits is accepted.
After all items the remaining input must be empty.  The resulting triple
is then validated as a calendar date (`Parsed::to_naive_date`).
-/

/-- Characters skipped by chrono before a numeric item (`trim_start`).
Rust trims Unicode `White_Space`; only the ASCII portion matters here. -/
def isWs (c : Char) : Bool :=
  c == ' ' || c == '\t' || c == '\n' || c == '\x0d' || c == '\x0b' || c == '\x0c'

def trimLeft : List Char → List Char
  | [] => []
  | c :: cs => if isWs c then trimLeft cs else c :: cs

/-- ASCII digit test, as chrono's number scanner uses (`b'0'..=b'9'`). -/
def isDigitCh (c : Char) : Bool :=
  48 ≤ c.toNat && c.toNat ≤ 57

/-- Take at most `max` leading ASCII digits. -/
def takeDigits : Nat → List Char → List Char × List Char
  | _, [] => ([], [])
  | 0, s => ([], s)
  | max + 1, c :: cs =>
      if isDigitCh c then
        let (ds, rest) := takeDigits max cs
        (c :: ds, rest)
      else ([], c :: cs)

/-- Take every leading ASCII digit (chrono's unbounded scan for a signed
year). -/
def takeDigitsAll : List Char → List Char × List Char
  | [] => ([], [])
  | c :: cs =>
      if isDigitCh c then
        let (ds, rest) := takeDigitsAll cs
        (c :: ds, rest)
      else ([], c :: cs)

def digitsToNat (ds : List Char) : Nat :=
  ds.foldl (fun a c => a * 10 + (c.toNat - 48)) 0

/-- chrono's parse-error kinds that `%Y-%m-%d` parsing can produce,
with the display strings of `chrono::format::ParseError`. -/
inductive ChronoErr where
  | invalid
  | tooShort
  | tooLong
  | outOfRange
  | impossible
deriving DecidableEq, Repr

def ChronoErr.message : ChronoErr → String
  | .invalid => "input contains invalid characters"
  | .tooShort => "premature end of input"
  | .tooLong => "trailing input"
  | .outOfRange => "input is out of range"
  | .impossible => "no possible date and time matching input"

/-- `scan::number(s, 1, max)`: at least one digit, at most `max`. -/
def scanNumber (max : Nat) (s : List Char) : Except ChronoErr (Nat × List Char) :=
  let (ds, rest) := takeDigits max s
  match ds with
  | [] => if s.isEmpty then .error .tooShort else .error .invalid
  | _ => .ok (digitsToNat ds, rest)

/-- Unbounded digit scan used after an explicit year sign. -/
def scanNumberAll (s : List Char) : Except ChronoErr (Nat × List Char) :=
  let (ds, rest) := takeDigitsAll s
  match ds with
  | [] => if s.isEmpty then .error .tooShort else .error .invalid
  | _ => .ok (digitsToNat ds, rest)

def startsWith (c : Char) : List Char → Bool
  | [] => false
  | x :: _ => x == c

/-- Numeric `%Y` item: `starts_with('-')` / `starts_with('+')` take an
unbounded digit scan of the rest, otherwise up to 4 digits; leading
whitespace already trimmed by the caller. -/
def scanYear (s : List Char) : Except ChronoErr (Int × List Char) :=
  if startsWith '-' s then
    match scanNumberAll s.tail with
    | .ok (v, r) => .ok (-(v : Int), r)
    | .error e => .error e
  else if startsWith '+' s then
    match scanNumberAll s.tail with
    | .ok (v, r) => .ok ((v : Int), r)
    | .error e => .error e
  else
    match scanNumber 4 s with
    | .ok (v, r) => .ok ((v : Int), r)
    | .error e => .error e

/-- Literal item: the input must start with the given character. -/
def expectChar (c : Char) (s : List Char) : Except ChronoErr (List Char) :=
  match s with
  | [] => .error .tooShort
  | x :: rest => if x == c then .ok rest else .error .invalid

/-- The item sequence of `"%Y-%m-%d"` run over the input, followed by
chrono's end-of-input check and `Parsed::to_naive_date` validation. -/
def chronoParseYmd (s : List Char) : Except ChronoErr NaiveDate :=
  match scanYear (trimLeft s) with
  | .error e => .error e
  | .ok (y, s1) =>
    match expectChar '-' s1 with
    | .error e => .error e
    | .ok s2 =>
      match scanNumber 2 (trimLeft s2) with
      | .error e => .error e
      | .ok (m, s3) =>
        match expectChar '-' s3 with
        | .error e => .error e
        | .ok s4 =>
          match scanNumber 2 (trimLeft s4) with
          | .error e => .error e
          | .ok (d, s5) =>
            if ¬ s5.isEmpty then .error .tooLong
            else if validYmd y m d then .ok ⟨y, m, d⟩
            else .error .impossible

/-- `NaiveDate::parse_from_str(s, "%Y-%m-%d")`. -/
def parse_from_str (s : String) : Except ChronoErr NaiveDate :=
  chronoParseYmd s.toList

/-! ## `parse_date` (`src/main.rs`)

The ambient clock is made explicit: `utcToday` embeds
`Utc::now().date_naive()` (the current calendar date in UTC), and
`localToday` embeds `Local::now().date_naive()` (the current calendar
date in the invocation's local timezone).  They differ whenever the local
timezone offset moves the clock across a day boundary.  The source calls
`Utc::now().date_naive()` (its inline comment speaks of `naive_local()`).
-/

structure Clock where
  utcToday : NaiveDate
  localToday : NaiveDate
deriving DecidableEq, Repr

/-- `parse_date` from `src/main.rs`: `"today"` maps to
`Utc::now().date_naive()`; anything else goes through
`NaiveDate::parse_from_str(date_str, "%Y-%m-%d")` with the error mapped
through `format!("Invalid date format: \x7b\x7d", err)`. -/
def parse_date (clock : Clock) (date_str : String) : Except String NaiveDate :=
  if date_str = "today" then .ok clock.utcToday
  else
    match parse_from_str date_str with
    | .ok d => .ok d
    | .error e => .error ("Invalid date format: " ++ e.message)

/-! ## Date display (`date.to_string()` in `get_meals_for_canteen`) -/

def digitChar (n : Nat) : Char := Char.ofNat (48 + n)

/-- Two-digit zero-padded decimal. -/
def pad2 (n : Nat) : List Char := [digitChar (n / 10 % 10), digitChar (n % 10)]

/-- Four-digit zero-padded decimal. -/
def pad4 (n : Nat) : List Char :=
  [digitChar (n / 1000 % 10), digitChar (n / 100 % 10),
   digitChar (n / 10 % 10), digitChar (n % 10)]

/-- chrono's `Display` for `NaiveDate` (ISO `YYYY-MM-DD`; years outside
0..=9999 carry an explicit sign). -/
def NaiveDate.toIso (d : NaiveDate) : String :=
  let y :=
    if 0 ≤ d.year && d.year ≤ 9999 then pad4 d.year.toNat
    else (if d.year < 0 then '-' else '+') :: (toString d.year.natAbs).toList
  ⟨y ++ '-' :: pad2 d.month ++ '-' :: pad2 d.day⟩

/-! ## Data model of the reporting pipeline

`Canteen` is the record type of the `openmensa_rust_interface`
collaborator (spec: *CanteenRef* — numeric identifier plus display
name).  `Meal` is the collaborator's raw meal record (spec:
*MealRecord*). -/

structure Canteen where
  id : Nat
  name : String
deriving DecidableEq, Repr

structure Meal where
  name : String
  category : String
  prices : String
  notes : String
deriving DecidableEq, Repr

/-- Modelled from the spec: `TabledMeal` lives in `src/models.rs`, which
is not part of the given sources.  Per the spec, a *DisplayRow* is a meal
record projected into exactly the ordered column set used for rendering
(name, category, price(s), notes), the first and last columns being the
wrap candidates. -/
structure TabledMeal where
  name : String
  category : String
  prices : String
  notes : String
deriving DecidableEq, Repr

/-- Modelled from the spec: the `TabledMeal::from(Meal)` projection of
`src/models.rs` (not in the given sources) — field-for-field projection
of the meal record into the display row. -/
def TabledMeal.from (m : Meal) : TabledMeal :=
  ⟨m.name, m.category, m.prices, m.notes⟩

/-- One invocation of the external openmensa collaborator, recorded in
the call trace. -/
inductive CollabCall where
  | byId (id : Nat)
  | byLocation (loc : String)
  | byIds (ids : List Nat)
  | meals (canteenId : Nat) (date : String)
deriving DecidableEq, Repr

/-- Is this trace entry a per-canteen meal fetch? -/
def CollabCall.isMeals : CollabCall → Bool
  | .meals _ _ => true
  | _ => false

/-- The external collaborator interface (`openmensa_rust_interface`):
`get_canteen_by_id`, `get_canteens_by_location`, `get_canteens_by_ids`
and `get_meals`, each fallible with a message. -/
structure Collab where
  getCanteenById : Nat → Except String (Option Canteen)
  getCanteensByLocation : String → Except String (List Canteen)
  getCanteensByIds : List Nat → Except String (List Canteen)
  getMeals : Canteen → String → Except String (List Meal)

/-! ## Table formatter (`print_table` in `src/cli/cli.rs`)

`print_table` delegates the actual layout to the external `tabled`
crate: `Table::new`, `Style::modern()`, and
`Width::wrap(10).keep_words()` on the first and the last column.  The
crate's code is not part of the given sources, so the formatter is
modelled from the spec. -/

/-- Display width of a line of words: word lengths plus single spaces. -/
def lineWidth (ws : List String) : Nat :=
  (ws.map String.length).sum + (ws.length - 1)

/-- Modelled from the spec: the greedy word-wrap that
`Width::wrap(10).keep_words()` of the external `tabled` crate performs —
lines are filled word by word, a word that would exceed the width opens
a new line, and a word is never split (a word longer than the width
stands alone on its line, overflowing rather than being truncated). -/
def wrapAux (w : Nat) (cur : List String) : List String → List (List String)
  | [] => [cur]
  | x :: xs =>
      if lineWidth (cur ++ [x]) ≤ w then wrapAux w (cur ++ [x]) xs
      else cur :: wrapAux w [x] xs

/-- Word-wrap a word sequence to width `w` (empty cell: no lines). -/
def wrapWords (w : Nat) : List String → List (List String)
  | [] => []
  | x :: xs => wrapAux w [x] xs

/-- Modelled from the spec: cell text is broken at word boundaries
(spaces); empty fragments are dropped. -/
def splitWordsAux : List Char → List Char → List String
  | [], acc => if acc.isEmpty then [] else [⟨acc.reverse⟩]
  | c :: cs, acc =>
      if c = ' ' then
        if acc.isEmpty then splitWordsAux cs []
        else ⟨acc.reverse⟩ :: splitWordsAux cs []
      else splitWordsAux cs (c :: acc)

def splitWords (s : String) : List String :=
  splitWordsAux s.toList []

/-- Modelled from the spec: the output of the table formatter — a
bordered (modern box-drawing style) table with a header row and one row
of cells per display row, each cell a list of lines, each line a list of
words. -/
structure FormattedTable where
  bordered : Bool
  header : List String
  dataRows : List (List (List (List String)))
deriving DecidableEq, Repr

/-- Modelled from the spec: the column titles of the display-row
projection. -/
def tableHeader : List String := ["name", "category", "prices", "notes"]

/-- Modelled from the spec: one table row — first and last cells
word-wrapped to display width 10, interior cells a single unconstrained
line. -/
def formatRow (m : TabledMeal) : List (List (List String)) :=
  [wrapWords 10 (splitWords m.name), [[m.category]], [[m.prices]],
   wrapWords 10 (splitWords m.notes)]

/-- `print_table` (`src/cli/cli.rs`): build the table for the given
display rows with modern borders and the 10-wide keep-words wrap on the
first and last columns (layout modelled from the spec, the `tabled`
crate being external). -/
def print_table (tabled_meals : List TabledMeal) : FormattedTable :=
  { bordered := true
    header := tableHeader
    dataRows := tabled_meals.map formatRow }

/-! ## Meal report renderer (`print_meals` in `src/cli/cli.rs`) -/

/-- One item written to stdout by the renderer. -/
inductive Output where
  | line (s : String)
  | table (t : FormattedTable)
deriving DecidableEq, Repr

/-- `get_meals_for_canteen` (`src/cli/cli.rs`): fetch the meals for
`(canteen, date.to_string())` from the collaborator and project each into
a `TabledMeal`. -/
def get_meals_for_canteen (collab : Collab) (canteen : Canteen)
    (date : NaiveDate) : Except String (List TabledMeal) :=
  match collab.getMeals canteen date.toIso with
  | .error e => .error e
  | .ok meals => .ok (meals.map TabledMeal.from)

/-- `print_meals` (`src/cli/cli.rs`): visit the canteens in order; on a
successful fetch print the canteen name then its table and continue; on
a fetch failure return
`Err("Error fetching meals for \x7bname\x7d: \x7berr\x7d")` at once,
printing nothing for that canteen or any later one.  Returns the meal
calls made, the stdout items, and the result. -/
def print_meals (collab : Collab) :
    List Canteen → NaiveDate → List CollabCall × List Output × Except String Unit
  | [], _ => ([], [], .ok ())
  | canteen :: rest, date =>
      match get_meals_for_canteen collab canteen date with
      | .ok tabled_meals =>
          let (calls, out, res) := print_meals collab rest date
          (.meals canteen.id date.toIso :: calls,
           .line canteen.name :: .table (print_table tabled_meals) :: out,
           res)
      | .error err =>
          ([.meals canteen.id date.toIso], [],
           .error ("Error fetching meals for " ++ canteen.name ++ ": " ++ err))

/-! ## Canteen resolution and the main pipeline (`src/main.rs`) -/

/-- Modelled from the spec: the fields of `Args` (`src/args.rs`, not in
the given sources) that the pipeline reads — the mutually exclusive id
and location selectors and the date token. -/
structure Args where
  id : Option Nat
  location : Option String
  date : String
deriving Repr

/-- Modelled from the spec: the `locations.canteens` table of the
configuration file (`src/config.rs`, not in the given sources) — the
configured ordered default identifier set. -/
structure Locations where
  canteens : List Nat
deriving Repr

structure Configs where
  locations : Locations
deriving Repr

/-- `fetch_canteens` (`src/main.rs`): by-id lookup if an id is present,
else by-location lookup if a location is present, else the batch lookup
of the configured defaults.  Returns the calls made, the stderr lines,
and `some canteens` on success / `none` on failure. -/
def fetch_canteens (collab : Collab) (args : Args) (configs : Configs) :
    List CollabCall × List String × Option (List Canteen) :=
  match args.id with
  | some id =>
      match collab.getCanteenById id with
      | .ok (some canteen) => ([.byId id], [], some [canteen])
      | .ok none => ([.byId id], ["Canteen not found by ID"], none)
      | .error err =>
          ([.byId id], ["Error fetching canteens by ID: " ++ err], none)
  | none =>
    match args.location with
    | some location_str =>
        match collab.getCanteensByLocation location_str with
        | .ok canteens => ([.byLocation location_str], [], some canteens)
        | .error err =>
            ([.byLocation location_str],
             ["Error fetching canteens by location: " ++ err], none)
    | none =>
        match collab.getCanteensByIds configs.locations.canteens with
        | .ok canteens => ([.byIds configs.locations.canteens], [], some canteens)
        | .error err =>
            ([.byIds configs.locations.canteens],
             ["Error fetching canteens by IDs: " ++ err], none)

/-- Everything one pipeline run did: collaborator calls in order, stdout
items, stderr lines. -/
structure Trace where
  calls : List CollabCall
  stdout : List Output
  stderr : List String
deriving Repr

/-- The meal-reporting tail of `main` (`src/main.rs`, from the
`args.id.is_some() && args.location.is_some()` conflict check onward;
the config loading and the novelty/bot dispatch above it are out of the
pipeline): conflict check, then `fetch_canteens`, then `parse_date`,
then `print_meals`, each failure reported to stderr and ending the run. -/
def mainMeals (collab : Collab) (clock : Clock) (args : Args)
    (configs : Configs) : Trace :=
  if args.id.isSome && args.location.isSome then
    { calls := [], stdout := [], stderr := ["Use either location or id"] }
  else
    match fetch_canteens collab args configs with
    | (calls, errs, none) => { calls := calls, stdout := [], stderr := errs }
    | (calls, errs, some canteens) =>
        match parse_date clock args.date with
        | .error err =>
            { calls := calls, stdout := [],
              stderr := errs ++ ["Error parsing date: " ++ err] }
        | .ok date =>
            let (mcalls, out, res) := print_meals collab canteens date
            match res with
            | .ok _ =>
                { calls := calls ++ mcalls, stdout := out, stderr := errs }
            | .error err =>
                { calls := calls ++ mcalls, stdout := out,
                  stderr := errs ++ ["Error printing meals: " ++ err] }

/-! ## Helper notions used by the theorems -/

/-- The display rows a successful fetch for `c` yields (`[]` when the
fetch fails; only used under a success hypothesis). -/
def mealsOf (collab : Collab) (c : Canteen) (d : NaiveDate) : List TabledMeal :=
  match get_meals_for_canteen collab c d with
  | .ok ms => ms
  | .error _ => []

/-- The stdout items `print_meals` emits for one successfully fetched
canteen: its name as a header line, then its table. -/
def sectionOf (collab : Collab) (c : Canteen) (d : NaiveDate) : List Output :=
  [.line c.name, .table (print_table (mealsOf collab c d))]

/-- The zero-padded `YYYY-MM-DD` rendering of a (year, month, day)
triple. -/
def fmtYmd (y m d : Nat) : String :=
  ⟨pad4 y ++ ('-' :: (pad2 m ++ ('-' :: pad2 d)))⟩

/-- A collaborator stub: id lookups find nothing, location and batch
lookups return no canteens, meal fetches return no meals. -/
def stubCollab : Collab where
  getCanteenById := fun _ => .ok none
  getCanteensByLocation := fun _ => .ok []
  getCanteensByIds := fun _ => .ok []
  getMeals := fun _ _ => .ok []

/-- A fixed clock for concrete runs (UTC and local date agree). -/
def someClock : Clock := ⟨⟨2024, 5, 7⟩, ⟨2024, 5, 7⟩⟩

/-! ## Claims -/

/-- **C10**: for the empty canteen sequence and any date, `print_meals`
returns `Ok(())`, prints nothing and calls no collaborator — a location
resolution that matched zero canteens is a silently successful
invocation. -/
theorem print_meals_empty_silent (collab : Collab) (d : NaiveDate) :
    print_meals collab [] d = ([], [], .ok ()) := rfl

/-- **C4** (code bug): at a clock where the UTC calendar date and the
invocation's local calendar date differ, `parse_date` applied to the
exact token `"today"` returns the UTC date, not the local date the spec
(and the source's own inline comment) call for. -/
theorem parse_today_returns_utc_not_local :
    parse_date ⟨⟨2024, 1, 1⟩, ⟨2024, 1, 2⟩⟩ "today" = .ok ⟨2024, 1, 1⟩
      ∧ (⟨⟨2024, 1, 1⟩, ⟨2024, 1, 2⟩⟩ : Clock).utcToday
          ≠ (⟨⟨2024, 1, 1⟩, ⟨2024, 1, 2⟩⟩ : Clock).localToday := by
  exact ⟨rfl, by decide⟩

/-- **C2**: when both an explicit id and a free-text location are
supplied, the pipeline halts at the conflict check with the
conflicting-selectors report and an empty call trace — no lookup and no
fetch happens. -/
theorem conflict_skips_collaborators (collab : Collab) (clock : Clock)
    (args : Args) (configs : Configs) (i : Nat) (l : String)
    (hid : args.id = some i) (hloc : args.location = some l) :
    mainMeals collab clock args configs
      = ⟨[], [], ["Use either location or id"]⟩ := by
  simp [mainMeals, hid, hloc]

theorem conflict_skips_collaborators_witness :
    mainMeals stubCollab someClock ⟨some 1, some "dresden", "today"⟩ ⟨⟨[1]⟩⟩
      = ⟨[], [], ["Use either location or id"]⟩ :=
  conflict_skips_collaborators stubCollab someClock _ _ 1 "dresden" rfl rfl

/-- **C3** (counterexample): a run whose date token is the malformed
`"not-a-date"` still performs a canteen lookup — the call trace of the
run is `[byIds [1]]`, not empty, because `main` resolves canteens before
it parses the date. -/
theorem invalid_date_still_looks_up_cex :
    (mainMeals stubCollab someClock ⟨none, none, "not-a-date"⟩ ⟨⟨[1]⟩⟩).calls
        = [.byIds [1]]
      ∧ [CollabCall.byIds [1]] ≠ [] := by
  exact ⟨rfl, by decide⟩

/-- Resolution only ever records lookup calls, never a meal fetch. -/
theorem fetch_canteens_calls_no_meals (collab : Collab) (args : Args)
    (configs : Configs) :
    ∀ call ∈ (fetch_canteens collab args configs).1, call.isMeals = false := by
  intro call hc
  rcases hid : args.id with _ | i
  · rcases hloc : args.location with _ | l
    · rcases hres : collab.getCanteensByIds configs.locations.canteens with e | cs <;>
        · simp [fetch_canteens, hid, hloc, hres] at hc
          subst hc; rfl
    · rcases hres : collab.getCanteensByLocation l with e | cs <;>
        · simp [fetch_canteens, hid, hloc, hres] at hc
          subst hc; rfl
  · rcases hres : collab.getCanteenById i with e | (_ | c) <;>
      · simp [fetch_canteens, hid, hres] at hc
        subst hc; rfl

/-- **C3** (amended): on a malformed or out-of-range date token the run
reports the date error (once resolution has succeeded) and performs no
meal fetch and prints nothing — but the canteen lookup itself has
already happened, since `main` resolves canteens before parsing the
date. -/
theorem invalid_date_no_meal_fetch (collab : Collab) (clock : Clock)
    (args : Args) (configs : Configs) (e : String)
    (hdate : parse_date clock args.date = .error e) :
    (∀ call ∈ (mainMeals collab clock args configs).calls, call.isMeals = false)
      ∧ (mainMeals collab clock args configs).stdout = []
      ∧ (∀ calls errs cs,
          fetch_canteens collab args configs = (calls, errs, some cs) →
          (args.id.isSome && args.location.isSome) = false →
          (mainMeals collab clock args configs).stderr
            = errs ++ ["Error parsing date: " ++ e]) := by
  have hno := fetch_canteens_calls_no_meals collab args configs
  by_cases hconf : (args.id.isSome && args.location.isSome) = true
  · refine ⟨?_, ?_, ?_⟩
    · intro call hc
      simp [mainMeals, hconf] at hc
    · simp [mainMeals, hconf]
    · intro calls errs cs _ hfalse
      rw [hconf] at hfalse
      exact absurd hfalse (by simp)
  · rcases hF : fetch_canteens collab args configs with ⟨calls, errs, _ | cs⟩
    · refine ⟨?_, ?_, ?_⟩
      · intro call hc
        simp [mainMeals, hconf, hF] at hc
        exact hno call (by rw [hF]; exact hc)
      · simp [mainMeals, hconf, hF]
      · intro calls' errs' cs' hF' _
        simp at hF'
    · refine ⟨?_, ?_, ?_⟩
      · intro call hc
        simp [mainMeals, hconf, hF, hdate] at hc
        exact hno call (by rw [hF]; exact hc)
      · simp [mainMeals, hconf, hF, hdate]
      · intro calls' errs' cs' hF' _
        simp only [Prod.mk.injEq, Option.some.injEq] at hF'
        obtain ⟨h1, h2, h3⟩ := hF'
        subst h1; subst h2; subst h3
        simp [mainMeals, hconf, hF, hdate]

theorem invalid_date_no_meal_fetch_witness :
    (mainMeals stubCollab someClock ⟨none, none, "not-a-date"⟩ ⟨⟨[1]⟩⟩).stdout = []
      ∧ (mainMeals stubCollab someClock ⟨none, none, "not-a-date"⟩ ⟨⟨[1]⟩⟩).stderr
          = ["Error parsing date: Invalid date format: input contains invalid characters"] :=
  ⟨(invalid_date_no_meal_fetch stubCollab someClock ⟨none, none, "not-a-date"⟩
      ⟨⟨[1]⟩⟩ "Invalid date format: input contains invalid characters" rfl).2.1,
   (invalid_date_no_meal_fetch stubCollab someClock ⟨none, none, "not-a-date"⟩
      ⟨⟨[1]⟩⟩ "Invalid date format: input contains invalid characters" rfl).2.2
     [.byIds [1]] [] [] rfl rfl⟩

/-- **C5** (counterexample): the not-found resolution error does not
carry the id — two runs asking for the distinct ids 1 and 2, both
unknown to the collaborator, report the identical constant line
`"Canteen not found by ID"`. -/
theorem notfound_error_constant_cex :
    (fetch_canteens stubCollab ⟨some 1, none, "today"⟩ ⟨⟨[]⟩⟩).2
        = (["Canteen not found by ID"], none)
      ∧ (fetch_canteens stubCollab ⟨some 2, none, "today"⟩ ⟨⟨[]⟩⟩).2
        = (["Canteen not found by ID"], none)
      ∧ (1 : Nat) ≠ 2 := by
  exact ⟨rfl, rfl, by decide⟩

/-- **C5** (amended): once the conflict check has passed,
`fetch_canteens` executes exactly one of the three branches, in priority
order id / location / configured defaults, recording exactly one
collaborator call; an id success yields a single-element sequence, an id
not-found yields the constant not-found report (which does not carry the
id), the location branch returns the collaborator's sequence as is (an
empty sequence being a success, not an error), the default branch batch
looks up the configured identifier set, and in every branch a
collaborator failure yields the branch's lookup-error report. -/
theorem fetch_canteens_branches (collab : Collab) (args : Args)
    (configs : Configs) :
    (∀ i, args.id = some i →
      (fetch_canteens collab args configs).1 = [.byId i]
        ∧ (∀ c, collab.getCanteenById i = .ok (some c) →
            (fetch_canteens collab args configs).2 = ([], some [c]))
        ∧ (collab.getCanteenById i = .ok none →
            (fetch_canteens collab args configs).2
              = (["Canteen not found by ID"], none))
        ∧ (∀ e, collab.getCanteenById i = .error e →
            (fetch_canteens collab args configs).2
              = (["Error fetching canteens by ID: " ++ e], none)))
      ∧ (∀ l, args.id = none → args.location = some l →
        (fetch_canteens collab args configs).1 = [.byLocation l]
          ∧ (∀ cs, collab.getCanteensByLocation l = .ok cs →
              (fetch_canteens collab args configs).2 = ([], some cs))
          ∧ (∀ e, collab.getCanteensByLocation l = .error e →
              (fetch_canteens collab args configs).2
                = (["Error fetching canteens by location: " ++ e], none)))
      ∧ (args.id = none → args.location = none →
        (fetch_canteens collab args configs).1 = [.byIds configs.locations.canteens]
          ∧ (∀ cs, collab.getCanteensByIds configs.locations.canteens = .ok cs →
              (fetch_canteens collab args configs).2 = ([], some cs))
          ∧ (∀ e, collab.getCanteensByIds configs.locations.canteens = .error e →
              (fetch_canteens collab args configs).2
                = (["Error fetching canteens by IDs: " ++ e], none)))
      ∧ (fetch_canteens collab args configs).1.length = 1 := by
  refine ⟨?_, ?_, ?_, ?_⟩
  · intro i hid
    refine ⟨?_, ?_, ?_, ?_⟩
    · rcases hres : collab.getCanteenById i with e | (_ | c) <;>
        simp [fetch_canteens, hid, hres]
    · intro c hres
      simp [fetch_canteens, hid, hres]
    · intro hres
      simp [fetch_canteens, hid, hres]
    · intro e hres
      simp [fetch_canteens, hid, hres]
  · intro l hid hloc
    refine ⟨?_, ?_, ?_⟩
    · rcases hres : collab.getCanteensByLocation l with e | cs <;>
        simp [fetch_canteens, hid, hloc, hres]
    · intro cs hres
      simp [fetch_canteens, hid, hloc, hres]
    · intro e hres
      simp [fetch_canteens, hid, hloc, hres]
  · intro hid hloc
    refine ⟨?_, ?_, ?_⟩
    · rcases hres : collab.getCanteensByIds configs.locations.canteens with e | cs <;>
        simp [fetch_canteens, hid, hloc, hres]
    · intro cs hres
      simp [fetch_canteens, hid, hloc, hres]
    · intro e hres
      simp [fetch_canteens, hid, hloc, hres]
  · rcases hid : args.id with _ | i
    · rcases hloc : args.location with _ | l
      · rcases hres : collab.getCanteensByIds configs.locations.canteens with e | cs <;>
          simp [fetch_canteens, hid, hloc, hres]
      · rcases hres : collab.getCanteensByLocation l with e | cs <;>
          simp [fetch_canteens, hid, hloc, hres]
    · rcases hres : collab.getCanteenById i with e | (_ | c) <;>
        simp [fetch_canteens, hid, hres]

theorem fetch_canteens_branches_witness :
    (fetch_canteens stubCollab ⟨none, some "dresden", "today"⟩ ⟨⟨[]⟩⟩).1
        = [.byLocation "dresden"]
      ∧ (fetch_canteens stubCollab ⟨none, some "dresden", "today"⟩ ⟨⟨[]⟩⟩).2
        = ([], some []) :=
  ⟨((fetch_canteens_branches stubCollab ⟨none, some "dresden", "today"⟩
      ⟨⟨[]⟩⟩).2.1 "dresden" rfl rfl).1,
   ((fetch_canteens_branches stubCollab ⟨none, some "dresden", "today"⟩
      ⟨⟨[]⟩⟩).2.1 "dresden" rfl rfl).2.1 [] rfl⟩

/-- **C6**: `print_meals` visits the canteens strictly in resolver
output order — when every fetch succeeds, the stdout is exactly the
concatenation of the per-canteen sections in the order of the input
list (hence it matches the input order for every permutation), and the
meal calls are made in that same order. -/
theorem print_meals_visits_in_order (collab : Collab) (d : NaiveDate)
    (cs : List Canteen)
    (h : ∀ c ∈ cs, ∃ ms, get_meals_for_canteen collab c d = .ok ms) :
    print_meals collab cs d
      = (cs.map (fun c => .meals c.id d.toIso),
         (cs.map (fun c => sectionOf collab c d)).flatten,
         .ok ()) := by
  induction cs with
  | nil => rfl
  | cons c rest ih =>
      obtain ⟨ms, hok⟩ := h c (List.mem_cons_self c rest)
      have hrest := ih (fun c' hc' => h c' (List.mem_cons_of_mem c hc'))
      simp [print_meals, hok, hrest, sectionOf, mealsOf]

theorem print_meals_visits_in_order_witness :
    print_meals stubCollab [⟨1, "Alpha"⟩, ⟨2, "Beta"⟩, ⟨3, "Gamma"⟩] ⟨2024, 5, 7⟩
      = ([.meals 1 "2024-05-07", .meals 2 "2024-05-07", .meals 3 "2024-05-07"],
         [.line "Alpha", .table (print_table []),
          .line "Beta", .table (print_table []),
          .line "Gamma", .table (print_table [])],
         .ok ()) := by
  have h := print_meals_visits_in_order stubCollab ⟨2024, 5, 7⟩
    [⟨1, "Alpha"⟩, ⟨2, "Beta"⟩, ⟨3, "Gamma"⟩]
    (by intro c _; exact ⟨[], rfl⟩)
  simpa [sectionOf, mealsOf, NaiveDate.toIso, pad4, pad2, digitChar] using h

/-- A collaborator for which the meal fetch fails exactly for the
canteen with id 2. -/
def failCollab : Collab where
  getCanteenById := fun _ => .ok none
  getCanteensByLocation := fun _ => .ok []
  getCanteensByIds := fun _ => .ok []
  getMeals := fun c _ => if c.id == 2 then .error "boom" else .ok []

/-- **C1**: when the meal fetch fails for the canteen at position `i`
(= `pre.length`), `print_meals` prints the header and table of every
canteen before it, prints nothing for it or any later canteen, stops
fetching after it, and returns the fetch error naming the failing
canteen's display name — the sections already printed remain in the
output. -/
theorem print_meals_fail_fast (collab : Collab) (d : NaiveDate)
    (pre : List Canteen) (c : Canteen) (post : List Canteen) (msg : String)
    (hpre : ∀ c' ∈ pre, ∃ ms, get_meals_for_canteen collab c' d = .ok ms)
    (hc : get_meals_for_canteen collab c d = .error msg) :
    print_meals collab (pre ++ c :: post) d
      = ((pre.map fun c' => .meals c'.id d.toIso) ++ [.meals c.id d.toIso],
         (pre.map fun c' => sectionOf collab c' d).flatten,
         .error ("Error fetching meals for " ++ c.name ++ ": " ++ msg)) := by
  induction pre with
  | nil => simp [print_meals, hc]
  | cons p rest ih =>
      obtain ⟨ms, hok⟩ := hpre p (List.mem_cons_self p rest)
      have hrest := ih (fun c' hc' => hpre c' (List.mem_cons_of_mem p hc'))
      simp [print_meals, hok, hrest, sectionOf, mealsOf]

theorem print_meals_fail_fast_witness :
    print_meals failCollab [⟨1, "Alpha"⟩, ⟨2, "Beta"⟩, ⟨3, "Gamma"⟩] ⟨2024, 5, 7⟩
      = ([.meals 1 "2024-05-07", .meals 2 "2024-05-07"],
         [.line "Alpha", .table (print_table [])],
         .error "Error fetching meals for Beta: boom") := by
  have h := print_meals_fail_fast failCollab ⟨2024, 5, 7⟩
    [⟨1, "Alpha"⟩] ⟨2, "Beta"⟩ [⟨3, "Gamma"⟩] "boom"
    (by intro c' h; simp at h; subst h; exact ⟨[], rfl⟩) rfl
  simpa [sectionOf, mealsOf, NaiveDate.toIso, pad4, pad2, digitChar,
    get_meals_for_canteen, failCollab] using h

/-- Wrapping loses no word and splits none: the lines of `wrapAux`
concatenate back to the open line followed by the remaining words. -/
theorem wrapAux_flatten (w : Nat) (ws : List String) :
    ∀ cur, (wrapAux w cur ws).flatten = cur ++ ws := by
  induction ws with
  | nil => intro cur; simp [wrapAux]
  | cons x xs ih =>
      intro cur
      simp only [wrapAux]
      split
      · rw [ih]; simp
      · simp [ih]

theorem wrapWords_flatten (w : Nat) (ws : List String) :
    (wrapWords w ws).flatten = ws := by
  cases ws with
  | nil => rfl
  | cons x xs => simp [wrapWords, wrapAux_flatten]

/-- Every produced line is nonempty and either fits the width or is a
single (possibly overlong, never split) word. -/
theorem wrapAux_lines (w : Nat) (ws : List String) :
    ∀ cur, cur ≠ [] → (lineWidth cur ≤ w ∨ cur.length = 1) →
      ∀ line ∈ wrapAux w cur ws,
        line ≠ [] ∧ (lineWidth line ≤ w ∨ line.length = 1) := by
  induction ws with
  | nil =>
      intro cur h1 h2 line hl
      simp [wrapAux] at hl
      subst hl; exact ⟨h1, h2⟩
  | cons x xs ih =>
      intro cur h1 h2 line hl
      simp only [wrapAux] at hl
      split at hl
      · exact ih (cur ++ [x]) (by simp) (Or.inl (by assumption)) line hl
      · rcases List.mem_cons.mp hl with h | h
        · subst h; exact ⟨h1, h2⟩
        · exact ih [x] (by simp) (Or.inr rfl) line h

theorem wrapWords_lines (w : Nat) (ws : List String) :
    ∀ line ∈ wrapWords w ws,
      line ≠ [] ∧ (lineWidth line ≤ w ∨ line.length = 1) := by
  cases ws with
  | nil => intro line hl; simp [wrapWords] at hl
  | cons x xs => exact wrapAux_lines w xs [x] (by simp) (Or.inr rfl)

/-- **C9**: the formatter wraps the first and the last column to display
width 10, breaking only at word boundaries — every line of such a cell
either fits in 10 characters or consists of one single word (a word is
never split, overflow wraps onto further lines instead of truncating,
and concatenating the lines restores the words exactly); interior
columns stay single unconstrained lines; and on zero rows it still
yields a bordered table with its header and no data rows. -/
theorem print_table_wrap :
    ((print_table []).dataRows = [] ∧ (print_table []).header = tableHeader
        ∧ (print_table []).bordered = true)
      ∧ (∀ meals m, m ∈ meals →
          formatRow m ∈ (print_table meals).dataRows
            ∧ (formatRow m).head? = some (wrapWords 10 (splitWords m.name))
            ∧ (formatRow m).getLast? = some (wrapWords 10 (splitWords m.notes))
            ∧ (formatRow m)[1]? = some [[m.category]]
            ∧ (formatRow m)[2]? = some [[m.prices]]
            ∧ (wrapWords 10 (splitWords m.name)).flatten = splitWords m.name
            ∧ (wrapWords 10 (splitWords m.notes)).flatten = splitWords m.notes
            ∧ (∀ line ∈ wrapWords 10 (splitWords m.name),
                line ≠ [] ∧ (lineWidth line ≤ 10 ∨ line.length = 1))
            ∧ (∀ line ∈ wrapWords 10 (splitWords m.notes),
                line ≠ [] ∧ (lineWidth line ≤ 10 ∨ line.length = 1))) := by
  refine ⟨⟨rfl, rfl, rfl⟩, ?_⟩
  intro meals m hm
  exact ⟨List.mem_map_of_mem formatRow hm, rfl, rfl, rfl, rfl,
    wrapWords_flatten 10 _, wrapWords_flatten 10 _,
    wrapWords_lines 10 _, wrapWords_lines 10 _⟩

theorem print_table_wrap_witness :
    (wrapWords 10 (splitWords "vegetarian schnitzel with fries")).flatten
        = splitWords "vegetarian schnitzel with fries"
      ∧ wrapWords 10 (splitWords "vegetarian schnitzel with fries")
        = [["vegetarian"], ["schnitzel"], ["with", "fries"]] :=
  ⟨(print_table_wrap.2
      [⟨"vegetarian schnitzel with fries", "main", "3.50", "vegan"⟩]
      ⟨"vegetarian schnitzel with fries", "main", "3.50", "vegan"⟩
      (by simp)).2.2.2.2.2.1,
   by decide⟩

/-- A successful `%Y-%m-%d` parse only ever produces a valid calendar
date (the final `Parsed::to_naive_date` validation). -/
theorem chronoParseYmd_valid (l : List Char) (y : Int) (m d : Nat)
    (h : chronoParseYmd l = .ok ⟨y, m, d⟩) : validYmd y m d = true := by
  unfold chronoParseYmd at h
  repeat' split at h
  all_goals simp_all

/-- **C7** (counterexample): `parse_date` accepts the non-zero-padded
token `"2024-1-1"`, which is not the zero-padded `YYYY-MM-DD` rendering
of the date it yields — so succeeding only on zero-padded `YYYY-MM-DD`
strings is false of the code. -/
theorem parse_accepts_unpadded_cex :
    parse_date someClock "2024-1-1" = .ok ⟨2024, 1, 1⟩
      ∧ fmtYmd 2024 1 1 ≠ "2024-1-1" := by
  exact ⟨rfl, by decide⟩

/-- **C7** (amended): for every token other than `"today"`, `parse_date`
succeeds only on a date that is valid for its month and year (leap years
accounted for) — though zero padding is not required, chrono's lenient
`%Y-%m-%d` parsing also accepting 1–2 digit month and day (and a signed
year or leading whitespace before numbers) — and every violation fails
with the `"Invalid date format: "` message carrying the parse
diagnostic; in particular `"2024-02-30"`, `"2024-13-01"` and
`"not-a-date"` are each rejected that way. -/
theorem parse_date_validates (clock : Clock) :
    (∀ s y m d, parse_date clock s = .ok ⟨y, m, d⟩ → s ≠ "today" →
        validYmd y m d = true)
      ∧ (∃ e, parse_date clock "2024-02-30"
          = .error ("Invalid date format: " ++ ChronoErr.message e))
      ∧ (∃ e, parse_date clock "2024-13-01"
          = .error ("Invalid date format: " ++ ChronoErr.message e))
      ∧ (∃ e, parse_date clock "not-a-date"
          = .error ("Invalid date format: " ++ ChronoErr.message e)) := by
  refine ⟨?_, ⟨.impossible, rfl⟩, ⟨.impossible, rfl⟩, ⟨.invalid, rfl⟩⟩
  intro s y m d hok hs
  rw [parse_date, if_neg hs] at hok
  rcases hp : parse_from_str s with e | d'
  · rw [hp] at hok; exact absurd hok (by simp)
  · rw [hp] at hok
    simp only [Except.ok.injEq] at hok
    subst hok
    exact chronoParseYmd_valid s.toList y m d hp

theorem parse_date_validates_witness :
    validYmd 2024 5 7 = true :=
  (parse_date_validates someClock).1 "2024-05-07" 2024 5 7 rfl (by decide)

/-! ## Round-trip lemmas for zero-padded dates -/

theorem toNat_digitChar (k : Nat) (h : k < 10) : (digitChar k).toNat = 48 + k := by
  interval_cases k <;> rfl

theorem isDigitCh_digitChar (k : Nat) (h : k < 10) :
    isDigitCh (digitChar k) = true := by
  interval_cases k <;> rfl

theorem isWs_digitChar (k : Nat) (h : k < 10) : isWs (digitChar k) = false := by
  interval_cases k <;> rfl

theorem digitChar_beq_dash (k : Nat) (h : k < 10) :
    (digitChar k == '-') = false := by
  interval_cases k <;> rfl

theorem digitChar_beq_plus (k : Nat) (h : k < 10) :
    (digitChar k == '+') = false := by
  interval_cases k <;> rfl

/-- The bounded digit scan consumes an all-digit prefix exactly. -/
theorem takeDigits_exact (ds rest : List Char)
    (h : ∀ c ∈ ds, isDigitCh c = true) :
    takeDigits ds.length (ds ++ rest) = (ds, rest) := by
  induction ds with
  | nil => cases rest <;> rfl
  | cons c cs ih =>
      have hc := h c (List.mem_cons_self c cs)
      have := ih (fun c' h' => h c' (List.mem_cons_of_mem c h'))
      simp [takeDigits, hc, this]

theorem trimLeft_pad4 (y : Nat) (rest : List Char) :
    trimLeft (pad4 y ++ rest) = pad4 y ++ rest := by
  simp [pad4, trimLeft, isWs_digitChar (y / 1000 % 10) (by omega)]

theorem trimLeft_pad2 (m : Nat) (rest : List Char) :
    trimLeft (pad2 m ++ rest) = pad2 m ++ rest := by
  simp [pad2, trimLeft, isWs_digitChar (m / 10 % 10) (by omega)]

theorem trimLeft_pad2_nil (m : Nat) : trimLeft (pad2 m) = pad2 m := by
  simp [pad2, trimLeft, isWs_digitChar (m / 10 % 10) (by omega)]

theorem scanNumber_pad4 (y : Nat) (rest : List Char) (hy : y ≤ 9999) :
    scanNumber 4 (pad4 y ++ rest) = .ok (y, rest) := by
  have ht : takeDigits 4 (pad4 y ++ rest) = (pad4 y, rest) := by
    have hlen : (4 : Nat) = (pad4 y).length := by simp [pad4]
    rw [hlen, takeDigits_exact]
    intro c hc
    simp [pad4] at hc
    rcases hc with rfl | rfl | rfl | rfl <;>
      exact isDigitCh_digitChar _ (by omega)
  have e1 := toNat_digitChar (y / 1000 % 10) (by omega)
  have e2 := toNat_digitChar (y / 100 % 10) (by omega)
  have e3 := toNat_digitChar (y / 10 % 10) (by omega)
  have e4 := toNat_digitChar (y % 10) (by omega)
  unfold scanNumber
  rw [ht]
  simp [pad4, digitsToNat, e1, e2, e3, e4]
  omega

theorem scanNumber_pad2 (m : Nat) (rest : List Char) (hm : m ≤ 99) :
    scanNumber 2 (pad2 m ++ rest) = .ok (m, rest) := by
  have ht : takeDigits 2 (pad2 m ++ rest) = (pad2 m, rest) := by
    have hlen : (2 : Nat) = (pad2 m).length := by simp [pad2]
    rw [hlen, takeDigits_exact]
    intro c hc
    simp [pad2] at hc
    rcases hc with rfl | rfl <;> exact isDigitCh_digitChar _ (by omega)
  have e1 := toNat_digitChar (m / 10 % 10) (by omega)
  have e2 := toNat_digitChar (m % 10) (by omega)
  unfold scanNumber
  rw [ht]
  simp [pad2, digitsToNat, e1, e2]
  omega

theorem scanNumber_pad2_nil (d : Nat) (hd : d ≤ 99) :
    scanNumber 2 (pad2 d) = .ok (d, []) := by
  have := scanNumber_pad2 d [] hd
  rwa [List.append_nil] at this

/-- No month has more than 31 days. -/
theorem daysInMonth_le (y : Int) (m : Nat) : daysInMonth y m ≤ 31 := by
  unfold daysInMonth
  split <;> first | omega | split <;> omega

theorem scanYear_pad4 (y : Nat) (rest : List Char) (hy : y ≤ 9999) :
    scanYear (pad4 y ++ rest) = .ok ((y : Int), rest) := by
  have hd : startsWith '-' (pad4 y ++ rest) = false := by
    simp [pad4, startsWith, digitChar_beq_dash (y / 1000 % 10) (by omega)]
  have hp : startsWith '+' (pad4 y ++ rest) = false := by
    simp [pad4, startsWith, digitChar_beq_plus (y / 1000 % 10) (by omega)]
  rw [scanYear, hd, hp]
  simp [scanNumber_pad4 y rest hy]

theorem expectChar_dash (s : List Char) : expectChar '-' ('-' :: s) = .ok s := by
  simp [expectChar]

/-- **C8**: for every real calendar date with a four-digit year, parsing
its zero-padded `YYYY-MM-DD` rendering round-trips: `parse_date`
succeeds and returns exactly the (year, month, day) triple written in
the string. -/
theorem parse_date_roundtrip (clock : Clock) (y m d : Nat)
    (hy : y ≤ 9999) (hm1 : 1 ≤ m) (hm2 : m ≤ 12) (hd1 : 1 ≤ d)
    (hd2 : d ≤ daysInMonth (y : Int) m) :
    parse_date clock (fmtYmd y m d) = .ok ⟨(y : Int), m, d⟩ := by
  have hne : fmtYmd y m d ≠ "today" := by
    intro h
    have h2 : pad4 y ++ ('-' :: (pad2 m ++ ('-' :: pad2 d)))
        = "today".data := congrArg String.data h
    have h3 := congrArg List.length h2
    simp [pad4, pad2] at h3
  have t1 := trimLeft_pad4 y ('-' :: (pad2 m ++ ('-' :: pad2 d)))
  have s1 := scanYear_pad4 y ('-' :: (pad2 m ++ ('-' :: pad2 d))) hy
  have e1 := expectChar_dash (pad2 m ++ ('-' :: pad2 d))
  have t2 := trimLeft_pad2 m ('-' :: pad2 d)
  have s2 := scanNumber_pad2 m ('-' :: pad2 d) (by omega)
  have e2 := expectChar_dash (pad2 d)
  have t3 := trimLeft_pad2_nil d
  have s3 := scanNumber_pad2_nil d
    (by have := daysInMonth_le (y : Int) m; omega)
  have hv : validYmd (y : Int) m d = true := by
    simp only [validYmd, Bool.and_eq_true, decide_eq_true_eq]
    refine ⟨⟨⟨⟨⟨hm1, hm2⟩, hd1⟩, hd2⟩, by omega⟩, by omega⟩
  have hcore : parse_from_str (fmtYmd y m d) = .ok ⟨(y : Int), m, d⟩ := by
    show chronoParseYmd (pad4 y ++ ('-' :: (pad2 m ++ ('-' :: pad2 d)))) = _
    unfold chronoParseYmd
    simp only [t1, s1, e1, t2, s2, e2, t3, s3]
    simp [hv]
  rw [parse_date, if_neg hne]
  simp only [hcore]

theorem parse_date_roundtrip_witness :
    parse_date someClock (fmtYmd 2024 2 29) = .ok ⟨2024, 2, 29⟩ :=
  parse_date_roundtrip someClock 2024 2 29 (by decide) (by decide) (by decide)
    (by decide) (by decide)

end MensaCli
